import Mathlib

/-!
Verification development for the tiny-make build driver (Python sources under
`src/`).  Python strings are modelled as `List Char` (written `PyStr`); Python
sets are modelled as lists whose membership is the set's membership (unions are
appends, possibly with duplicates; set removal is `List.filter`, which removes
every copy, matching `set.remove`).  Python dynamic typing, where it matters,
is modelled with explicit sum types.  Fallible Python code (uncaught
exceptions) is modelled with `Option`/dedicated result types.
-/

/-- Python `str` values, modelled as their character lists. -/
abbrev PyStr := List Char

/-- Python string `<=` (and tuple `<=` for version tuples): lexicographic with
the shorter prefix smaller; `List`'s linear order on linearly ordered elements
is exactly this order. -/
def pyLe {α : Type} [LinearOrder α] (a b : List α) : Bool := decide (a ≤ b)

/-- Python `<` on tuples/strings. -/
def pyLt {α : Type} [LinearOrder α] (a b : List α) : Bool := decide (a < b)

/-- Python `str.join` over a list of strings: `sep.join(xs)`. -/
def strJoin (sep : PyStr) (xs : List PyStr) : PyStr := List.intercalate sep xs

/-- A Python value that is either a `str` or a `list[str]` — the two payloads
`Record.args` actually receives in the source (`record.py` declares
`list[str]`, `compiler.py` passes an already-joined `str`). -/
inductive StrOrList : Type
  | str (s : PyStr)
  | list (l : List PyStr)
deriving DecidableEq

/-- Python `' '.join(x)`: iterating a `str` yields its characters as 1-char
strings, so joining a `str` interleaves a space between every character;
joining a `list[str]` joins the elements. -/
def pyJoinSpace : StrOrList → PyStr
  | .str s => strJoin ([' ']) (s.map (fun c => [c]))
  | .list l => strJoin ([' ']) l

/-- `record.py` — `Record`: a build unit `{target, args, dependencies}`.
`args` is declared `list[str]` in the source but is dynamically typed. -/
structure Record where
  target : PyStr
  args : StrOrList
  dependencies : List PyStr
deriving DecidableEq

/-- `record.py` — `Record.command`: `' '.join(self.args)`. -/
def Record.command (r : Record) : PyStr := pyJoinSpace r.args

/-- `compiler.py` — `_pretty_join`: drop falsy (empty) strings, join the rest
with single spaces. -/
def pretty_join (xs : List PyStr) : PyStr := strJoin ([' ']) (xs.filter (fun s => s ≠ []))

section Entities

/-- `file.py` — the per-file data every analysed `Header`/`Source` entity
carries.  Entities are memoised per path (`module.py` `_analyse_header` /
`_analyse_source`), so a path identifies an entity and the analysed graph is a
function from paths to this data.  `edges` is `_local_header_details`
(pairs `(include_token, header_path)`), `companion` is `Header._source`,
`opts` is `_local_opts`, `libs` is `_local_libs`. -/
structure Entity where
  edges : List (PyStr × PyStr)
  companion : Option PyStr
  opts : List PyStr
  libs : List Nat
deriving DecidableEq

/-- The analysed entity graph: canonical path to entity data. -/
abbrev Env := PyStr → Entity

/-- `file.py` — `Header.sources()`: the companions of the transitive header
closure below (and including) a header.  The Python recursion
(`File.sources` / `Header.sources`) is structural over the header edges and
diverges on cyclic graphs; the `fuel` argument caps the depth, and on
the acyclic graphs the analysis phase produces it equals the Python result
once `fuel` exceeds the edge-depth. -/
def headerSources (env : Env) : Nat → PyStr → List PyStr
  | 0, _ => []
  | fuel + 1, h =>
    ((env h).edges.flatMap (fun e => headerSources env fuel e.2)) ++ (env h).companion.toList

/-- `file.py` — `Source.sources()`: union of `hdr.sources()` over the local
header edges (`File.sources`), then `srcs.remove(self)` — set removal of the
source's own path. -/
def sourceSources (env : Env) (fuel : Nat) (p : PyStr) : List PyStr :=
  ((env p).edges.flatMap (fun e => headerSources env fuel e.2)).filter (fun q => q ≠ p)

/-- `file.py` — `File.headers()`: transitive closure of the header edges. -/
def fileHeaders (env : Env) : Nat → PyStr → List PyStr
  | 0, _ => []
  | fuel + 1, p => (env p).edges.flatMap (fun e => e.2 :: fileHeaders env fuel e.2)

/-- `file.py` — `File.options()` (and `Source.options()`, which re-adds the
local options; membership is unchanged): local options plus the options of the
transitive header closure. -/
def fileOptions (env : Env) : Nat → PyStr → List PyStr
  | 0, _ => []
  | fuel + 1, p => (env p).opts ++ (env p).edges.flatMap (fun e => fileOptions env fuel e.2)

/-- `file.py` — `File.includes`: for each edge the include directory plus the
header's own `includes`, plus the non-null `include` dirs of the local
libraries, with the literal `.` removed at each level.  Library include
directories are resolved through `libIncl : Nat → Option PyStr` (the
`Library.include` field of the registered libraries). -/
def fileIncludes (env : Env) (libIncl : Nat → Option PyStr) : Nat → PyStr → List PyStr
  | 0, _ => []
  | fuel + 1, p =>
    (((env p).edges.flatMap (fun e => e.1 :: fileIncludes env libIncl fuel e.2)) ++
      ((env p).libs.filterMap libIncl)).filter (fun s => s ≠ ['.'])

/-- `file.py` — `Source.libraries()`: breadth-first closure over header edges
and header→companion edges, collecting `_local_libs`.  Modelled as a
fuel-bounded reachability union; membership agrees with the Python BFS once
`fuel` exceeds the number of reachable files. -/
def sourceLibraries (env : Env) : Nat → PyStr → List Nat
  | 0, _ => []
  | fuel + 1, p =>
    (env p).libs ++ ((env p).edges.flatMap (fun e => sourceLibraries env fuel e.2)) ++
      (match (env p).companion with
       | some s => sourceLibraries env fuel s
       | none => [])

end Entities

section TargetPath

/-- `env.py` — `BUILD_DIR_NAME`. -/
def BUILD_DIR_NAME : PyStr := ("build").data

/-- `env.py` — `LINKS_DIR_PATH = os.path.join(BUILD_DIR_NAME, '.links')`. -/
def LINKS_DIR_PATH : PyStr := ("build/.links").data

/-- Python `os.path.split(p)[1]`: the part of `p` after the last `/`. -/
def baseName (p : PyStr) : PyStr := (p.reverse.takeWhile (fun c => c ≠ '/')).reverse

/-- Length of the extension split off by `os.path.splitext`, including its
leading dot: the trailing run after the last `.` of the basename, provided the
basename has a non-dot character before that dot (leading dots of a basename
never start an extension). -/
def extSplitLen (b : PyStr) : Option Nat :=
  let extRev := b.reverse.takeWhile (fun c => c ≠ '.')
  if extRev.length = b.length then none
  else if (b.take (b.length - extRev.length - 1)).any (fun c => c ≠ '.') then
    some (extRev.length + 1)
  else none

/-- Python `os.path.splitext`. -/
def splitext (p : PyStr) : PyStr × PyStr :=
  match extSplitLen (baseName p) with
  | none => (p, [])
  | some k => (p.take (p.length - k), p.drop (p.length - k))

/-- Python `os.path.join(a, b)` for the shapes used here: an absolute `b`
discards `a`; otherwise the two parts are joined with a single `/`. -/
def osPathJoin (a b : PyStr) : PyStr :=
  if b.head? = some '/' then b else if a = [] then b else a ++ '/' :: b

/-- `file.py` — `Source.target`: strip a leading `LINKS_DIR_PATH` prefix plus
the following separator, rewrite the extension to `.o`, and place the result
under the build directory. -/
def sourceTarget (p : PyStr) : PyStr :=
  let stem := if LINKS_DIR_PATH <+: p then p.drop (LINKS_DIR_PATH.length + 1) else p
  osPathJoin BUILD_DIR_NAME ((splitext stem).1 ++ ('.' :: ['o']))

end TargetPath

section CompilerAbstraction

/-- `compiler.py` — a global registry view of `Library` fields needed by the
command builders: per library id its `include`, `libpath` and `libs` fields
and its `name` (libraries are identified by registry id; the dependency
manager dedupes them by name). -/
structure LibraryInfo where
  name : PyStr
  include? : Option PyStr
  libpath : Option PyStr
  libs : Option (List PyStr)

/-- Python `sorted` over strings: stable mergesort under lexicographic
order; on a duplicate-free input this is the unique sorted enumeration. -/
def pySorted (xs : List PyStr) : List PyStr := xs.mergeSort pyLe

/-- `config.py` — `Config.options`: `-O3` when optimising, the debug flag
triple otherwise. -/
def configOptions (optimize : Bool) : List PyStr :=
  if optimize then [("-O3").data]
  else [("-g").data, ("-O0").data, ("-fno-omit-frame-pointer").data]

/-- `compiler.py` — `_options_str`: config options then the sorted source
options, pretty-joined.  `source.options()` is a Python set, hence the dedup
before sorting. -/
def options_str (optimize : Bool) (env : Env) (fuel : Nat) (p : PyStr) : PyStr :=
  pretty_join (configOptions optimize ++ pySorted (fileOptions env fuel p).dedup)

/-- `compiler.py` — `_library_includes_str`: `-isystem <dir>` for every
non-null library include dir, sorted. -/
def library_includes_str (libOf : Nat → LibraryInfo) (env : Env) (fuel : Nat) (p : PyStr) :
    PyStr :=
  pretty_join ((pySorted (((sourceLibraries env fuel p).dedup).filterMap
    (fun i => (libOf i).include?))).map (fun d => ("-isystem ").data ++ d))

/-- `compiler.py` — `_library_paths_str`: `-L<dir>` for every non-null library
lib dir, sorted. -/
def library_paths_str (libOf : Nat → LibraryInfo) (env : Env) (fuel : Nat) (p : PyStr) :
    PyStr :=
  pretty_join ((pySorted (((sourceLibraries env fuel p).dedup).filterMap
    (fun i => (libOf i).libpath))).map (fun d => ("-L").data ++ d))

/-- `compiler.py` — `_library_names` / `_library_names_str`: the explicit
`libs` list of each library, or its name when absent; `-l<name>` each,
sorted (the Python set dedupes the names). -/
def library_names_str (libOf : Nat → LibraryInfo) (env : Env) (fuel : Nat) (p : PyStr) :
    PyStr :=
  pretty_join ((pySorted ((((sourceLibraries env fuel p).dedup).flatMap
    (fun i => match (libOf i).libs with
              | some names => names
              | none => [(libOf i).name])).dedup)).map (fun n => ("-l").data ++ n))

/-- `compiler.py` — `_source_includes_str`: `-I<dir>` for every include dir of
the source, sorted. -/
def source_includes_str (libOf : Nat → LibraryInfo) (env : Env) (fuel : Nat) (p : PyStr) :
    PyStr :=
  pretty_join ((pySorted ((fileIncludes env (fun i => (libOf i).include?) fuel p).dedup)).map
    (fun d => ("-I").data ++ d))

/-- `compiler.py` — `_objects`: the object targets of the transitive source
set (a Python set, hence deduped before mapping). -/
def objectsOf (env : Env) (fuel : Nat) (p : PyStr) : List PyStr :=
  ((sourceSources env fuel p).dedup).map sourceTarget

/-- `compiler.py` — `_dependencies`: transitive object targets, every header
path of the transitive header closure, then the source path itself. -/
def dependenciesOf (env : Env) (fuel : Nat) (p : PyStr) : List PyStr :=
  objectsOf env fuel p ++ (fileHeaders env fuel p).dedup ++ [p]

/-- The argv tokens `compile_record` hands to `_pretty_join` (before empty
tokens are dropped). -/
def compileTokens (libOf : Nat → LibraryInfo) (env : Env) (fuel : Nat)
    (cpath std : PyStr) (optimize : Bool) (p : PyStr) : List PyStr :=
  [cpath,
   ("-std=").data ++ std,
   options_str optimize env fuel p,
   library_includes_str libOf env fuel p,
   source_includes_str libOf env fuel p,
   ("-o").data,
   sourceTarget p,
   ("-c").data,
   p]

/-- `compiler.py` — `Compiler.compile_record`: builds the joined command
string and constructs `Record(source.target, command, dependencies)` — the
*string* `command` is passed where `Record.args` is declared `list[str]`. -/
def compile_record (libOf : Nat → LibraryInfo) (env : Env) (fuel : Nat)
    (cpath std : PyStr) (optimize : Bool) (p : PyStr) : Record :=
  let command := pretty_join (compileTokens libOf env fuel cpath std optimize p)
  { target := sourceTarget p, args := .str command, dependencies := dependenciesOf env fuel p }

/-- `compiler.py` — `Compiler.compile`, the object-record construction step:
`[self.compile_record(source, config) for source in source.sources()]`.
The comprehension iterates the *set* `source.sources()` (modelled in a fixed
order via `dedup`); the entry source itself is not among them. -/
def objectCompileRecords (libOf : Nat → LibraryInfo) (env : Env) (fuel : Nat)
    (cpath std : PyStr) (optimize : Bool) (p : PyStr) : List Record :=
  ((sourceSources env fuel p).dedup).map
    (fun q => compile_record libOf env fuel cpath std optimize q)

/-- `compiler.py` — `VersionDetails`: ordered `(minimum_version, std_name)`
table. -/
abbrev VersionDetails := List (List Nat × PyStr)

/-- `compiler.py` — `Compiler._select_version`:
`[detail for detail in details if detail[0] <= self.version][-1][1]`.
Indexing `[-1]` on the empty filtered list raises `IndexError`, modelled as
`none`. -/
def select_version (details : VersionDetails) (version : List Nat) : Option PyStr :=
  ((details.filter (fun d => pyLe d.1 version)).getLast?).map (fun d => d.2)

/-- `compiler.py` — `GccCompiler.VERSION_DETAILS`. -/
def GCC_VERSION_DETAILS : VersionDetails :=
  [([4, 7, 1], ("c++11").data),
   ([4, 9], ("c++14").data),
   ([5, 1], ("c++17").data),
   ([10, 1], ("c++20").data),
   ([11, 1], ("c++23").data)]

/-- `compiler.py` — `ClangCompiler.VERSION_DETAILS`. -/
def CLANG_VERSION_DETAILS : VersionDetails :=
  [([3, 3], ("c++11").data),
   ([3, 4], ("c++14").data),
   ([5], ("c++17").data),
   ([10], ("c++20").data),
   ([17, 0, 1], ("c++26").data)]

/-- A discovered compiler candidate: executable path and probed version. -/
structure Candidate where
  path : PyStr
  version : List Nat
deriving DecidableEq

/-- One comparison step of Python `max(..., key=lambda c: c.version)`: a later
candidate replaces the current one only when its key is strictly greater. -/
def stepMax (acc y : Candidate) : Candidate :=
  if pyLt acc.version y.version then y else acc

/-- Python `max(cands, key=lambda c: c.version)`: raises `ValueError` on an
empty list (modelled `none`); on ties the first maximal element wins. -/
def pyMaxByVersion (cands : List Candidate) : Option Candidate :=
  match cands with
  | [] => none
  | c :: cs => some (cs.foldl stepMax c)

/-- Outcome of `select_compiler`: a chosen candidate, the fatal
`complier not found` exit, or an uncaught `ValueError` from `max([])`. -/
inductive SelectResult : Type
  | found (c : Candidate)
  | noCompiler
  | valueError
deriving DecidableEq

/-- `compiler.py` — `select_compiler`: fatal when no candidate was discovered;
otherwise the gcc branch is taken when g++ is preferred *or* there are no
clang candidates, and the clang branch otherwise. -/
def select_compiler (prefer : PyStr) (gccs clangs : List Candidate) : SelectResult :=
  if gccs.length + clangs.length = 0 then .noCompiler
  else if prefer = ("g++").data ∨ clangs.length = 0 then
    match pyMaxByVersion gccs with
    | some c => .found c
    | none => .valueError
  else
    match pyMaxByVersion clangs with
    | some c => .found c
    | none => .valueError

end CompilerAbstraction

section BuildCache

/-- `cache.py` — `EntryDict`: one persisted cache entry. -/
structure EntryDict where
  hostname : PyStr
  command : PyStr
  dependencies : List PyStr
deriving DecidableEq

/-- The filesystem view `has_cache` consults: for each path its inode
change-time (`st_ctime_ns`) when the path exists, `none` otherwise
(`os.path.exists` is false and `os.stat` raises exactly when `ctime` is
`none`). -/
structure FileSystem where
  ctime : PyStr → Option Int

/-- Python dict lookup `self._entries[target]` over the deserialised cache,
modelled as an association list. -/
def lookupEntry (target : PyStr) (entries : List (PyStr × EntryDict)) : Option EntryDict :=
  (entries.find? (fun e => e.1 = target)).map (fun e => e.2)

/-- Python `set(a) == set(b)` on string lists. -/
def sameSet (a b : List PyStr) : Bool :=
  a.all (fun x => decide (x ∈ b)) && b.all (fun x => decide (x ∈ a))

/-- `cache.py` — the dependency loop at the end of `has_cache`: walk the
dependencies in order, return `False` at the first one whose change-time
exceeds the target's; a missing dependency makes `os.stat` raise
(modelled `none`). -/
def depsFresh (fs : FileSystem) (tc : Int) : List PyStr → Option Bool
  | [] => some true
  | d :: ds =>
    match fs.ctime d with
    | none => none
    | some td => if tc < td then some false else depsFresh fs tc ds

/-- `cache.py` — `Cache.has_cache` (the spec's `has_fresh`): target exists,
entry present, hostname and command match, dependency sets equal, and no
dependency changed after the target. -/
def has_cache (fs : FileSystem) (hostname : PyStr) (entries : List (PyStr × EntryDict))
    (r : Record) : Option Bool :=
  match fs.ctime r.target with
  | none => some false
  | some tc =>
    match lookupEntry r.target entries with
    | none => some false
    | some e =>
      if e.hostname ≠ hostname ∨ e.command ≠ r.command then some false
      else if ¬ sameSet r.dependencies e.dependencies then some false
      else depsFresh fs tc r.dependencies

end BuildCache

section ModuleResolution

/-- One iteration of the loop in `Module._find_self_include`: a path that
equals the include string resolves to directory `.`; a path ending with
`/<include>` resolves to the path with that suffix cut off (Python
`path[:-len(suffix)]`); any other path leaves `info` unchanged. -/
def fsiStep (incl : PyStr) (info : Option (PyStr × PyStr)) (path : PyStr) :
    Option (PyStr × PyStr) :=
  if path = incl then some (['.'], path)
  else if ('/' :: incl) <:+ path then
    some (path.take (path.length - (incl.length + 1)), path)
  else info

/-- `module.py` — `Module._find_self_include`: walk the module's header-path
set keeping the last match. -/
def find_self_include (headerPaths : List PyStr) (incl : PyStr) :
    Option (PyStr × PyStr) :=
  headerPaths.foldl (fsiStep incl) none

/-- `file.py` — `get_file_name`: basename without its extension. -/
def get_file_name (p : PyStr) : PyStr := (splitext (baseName p)).1

/-- State of one module during companion pairing: `_headers_mapping` as
path ↦ companion back-reference, the analysed `_sources_mapping` as
path ↦ local header edges, and the discovered `_source_paths`.  Python dicts
iterate in insertion order; the set `_source_paths` iterates in an arbitrary
fixed order, modelled by the list order. -/
structure PairState where
  headers : List (PyStr × Option PyStr)
  sources : List (PyStr × List (PyStr × PyStr))
  sourcePaths : List PyStr
deriving DecidableEq

/-- One companion attachment as it happens: the header path, the companion it
held at that moment, and the source path attached. -/
structure AttachEvent where
  header : PyStr
  prev : Option PyStr
  attached : PyStr
deriving DecidableEq

/-- Replace the companion of `h` in the header table (`Header.attach_source`,
reached through the mapping). -/
def setCompanion (hdrs : List (PyStr × Option PyStr)) (h : PyStr) (s : PyStr) :
    List (PyStr × Option PyStr) :=
  hdrs.map (fun e => if e.1 = h then (e.1, some s) else e)

/-- Current companion of `h` (`hdr.source`). -/
def companionOf (hdrs : List (PyStr × Option PyStr)) (h : PyStr) : Option (Option PyStr) :=
  (hdrs.find? (fun e => e.1 = h)).map (fun e => e.2)

/-- `module.py` — first loop of `_complete_header_once`: for every analysed
source and each of its local header edges, skip headers not in this module's
mapping or already paired, and attach the source when the stems match.  The
guard is re-read from the current state at every edge. -/
def completeOnceLoop1 (st : PairState) : PairState × List AttachEvent :=
  st.sources.foldl
    (fun (acc : PairState × List AttachEvent) src =>
      let name := get_file_name src.1
      src.2.foldl
        (fun (acc : PairState × List AttachEvent) edge =>
          match companionOf acc.1.headers edge.2 with
          | none => acc
          | some (some _) => acc
          | some none =>
            if name = get_file_name edge.2 then
              ({ acc.1 with headers := setCompanion acc.1.headers edge.2 src.1 },
               acc.2 ++ [⟨edge.2, none, src.1⟩])
            else acc)
        acc)
    (st, [])

/-- `module.py` — second loop of `_complete_header_once`: for every header
still lacking a companion, scan the source-path set and attach *every*
same-stem source in turn (the loop ends in `continue`, not `break`, and the
companion guard is only checked before the scan), analysing the source into
the mapping when new (`_analyse_source`, with edges given by `srcEdges`). -/
def completeOnceLoop2 (srcEdges : PyStr → List (PyStr × PyStr)) (st : PairState) :
    PairState × List AttachEvent :=
  st.headers.foldl
    (fun (acc : PairState × List AttachEvent) hdr =>
      match companionOf acc.1.headers hdr.1 with
      | none => acc
      | some (some _) => acc
      | some none =>
        let name := get_file_name hdr.1
        acc.1.sourcePaths.foldl
          (fun (acc : PairState × List AttachEvent) sp =>
            if name = get_file_name sp then
              let withSrc :=
                if (acc.1.sources.find? (fun e => e.1 = sp)).isSome then acc.1.sources
                else acc.1.sources ++ [(sp, srcEdges sp)]
              let prev := (companionOf acc.1.headers hdr.1).join
              ({ acc.1 with
                  headers := setCompanion acc.1.headers hdr.1 sp,
                  sources := withSrc },
               acc.2 ++ [⟨hdr.1, prev, sp⟩])
            else acc)
          acc)
    (st, [])

/-- `module.py` — `_complete_header_once`: both loops in sequence, returning
the new state and every attachment performed. -/
def complete_header_once (srcEdges : PyStr → List (PyStr × PyStr)) (st : PairState) :
    PairState × List AttachEvent :=
  let r1 := completeOnceLoop1 st
  let r2 := completeOnceLoop2 srcEdges r1.1
  (r2.1, r1.2 ++ r2.2)

end ModuleResolution

section ExecutionLayer

/-- `execute.py` — a spawned child handle as `wait_for_handles` observes it:
the command (`proc.args`, the shell string passed to `Popen`), the eventual
exit code `communicate`/`poll` reports once finished, whether the process is
still running when polled in draining mode, and the captured stderr text
(`None` for foreground children, whose streams are inherited). -/
structure Handle where
  args : PyStr
  finalCode : Int
  runningAtPoll : Bool
  stderrText : Option PyStr
deriving DecidableEq

/-- One element of the `errs` list: the first-failure branch appends a
3-tuple `(returncode, args, stderr)`, the draining branch appends a 4-tuple
`(ret, args, proc.stderr, stderr)` (the third component being the raw stream
object, `None` for inherited streams). -/
inductive ErrEntry : Type
  | t3 (code : Int) (cmd : PyStr) (stderr : Option PyStr)
  | t4 (code : Int) (cmd : PyStr) (stream : Option Unit) (stderr : Option PyStr)
deriving DecidableEq

/-- Outcome of `wait_for_handles`: normal return, the fatal
`compilation stopped` exit after printing every failure, or an uncaught
`ValueError` when the report loop 3-way-unpacks a 4-tuple. -/
inductive WaitResult : Type
  | ok
  | fatalExit (failures : List (Int × PyStr × Option PyStr))
  | valueError
deriving DecidableEq

/-- `execute.py` — `wait_for_handles`: wait in order; once `errs` is
non-empty, kill still-running handles and record drained non-zero exits as
4-tuples; afterwards report and exit fatally — except that unpacking any
4-tuple in the report loop raises `ValueError`. -/
def wait_for_handles (procs : List Handle) : WaitResult :=
  let errs := procs.foldl
    (fun (errs : List ErrEntry) proc =>
      if errs ≠ [] then
        if proc.runningAtPoll then errs
        else if proc.finalCode ≠ 0 then
          errs ++ [.t4 proc.finalCode proc.args none proc.stderrText]
        else errs
      else
        if proc.finalCode ≠ 0 then errs ++ [.t3 proc.finalCode proc.args proc.stderrText]
        else errs)
    []
  if errs = [] then .ok
  else if errs.any (fun e => match e with | .t4 _ _ _ _ => true | _ => false) then .valueError
  else .fatalExit (errs.filterMap
    (fun e => match e with | .t3 c cmd s => some (c, cmd, s) | _ => none))

end ExecutionLayer

section Fixtures

/-- The empty entity: a file with no includes, options or libraries. -/
def emptyEntity : Entity := ⟨[], none, [], []⟩

/-- An analysed graph where every file is empty. -/
def env0 : Env := fun _ => emptyEntity

/-- A library registry with no registered libraries. -/
def lib0 : Nat → LibraryInfo := fun _ => ⟨[], none, none, none⟩

/-- A two-file graph: `main.cpp` includes `foo.h`, whose companion is
`foo.cpp`; `foo.h` and `foo.cpp` have no further includes. -/
def env1 : Env := fun p =>
  if p = ("main.cpp").data then ⟨[((("foo.h").data), (("foo.h").data))], none, [], []⟩
  else if p = ("foo.h").data then ⟨[], some (("foo.cpp").data), [], []⟩
  else emptyEntity

/-- A module mid-pairing: one analysed header `foo.h` without a companion and
two discovered same-stem source files. -/
def pairSt0 : PairState :=
  { headers := [(("foo.h").data, none)], sources := [],
    sourcePaths := [("foo.cpp").data, ("a/foo.cpp").data] }

end Fixtures

-- quick sanity examples (erased before finishing if scratch) --
example : sourceTarget (("a/main.cpp").data) = ("build/a/main.o").data := by decide
example : sourceTarget (("build/.links/B-1a2b3c/util.cpp").data) =
    ("build/B-1a2b3c/util.o").data := by decide
example : pyJoinSpace (.str (("g++ -c").data)) = ("g + +   - c").data := by decide
example : pretty_join [("a").data, [], ("b").data] = ("a b").data := by decide
example : select_version GCC_VERSION_DETAILS [4, 0] = none := by decide
example : select_version GCC_VERSION_DETAILS [12, 1] = some (("c++23").data) := by decide
example : select_version CLANG_VERSION_DETAILS [5] = some (("c++17").data) := by decide
example : select_compiler (("g++").data) [] [⟨("clang++").data, [15]⟩] = .valueError := by
  decide
example : find_self_include [("a/foo.h").data] (("foo.h").data) =
    some (("a").data, ("a/foo.h").data) := by decide
example : find_self_include [("foo.h").data] (("foo.h").data) =
    some ([' '].tail ++ ['.'], ("foo.h").data) := by decide
example : get_file_name (("a/foo.cpp").data) = ("foo").data := by decide
example :
    (complete_header_once (fun _ => [])
      { headers := [(("foo.h").data, none)], sources := [],
        sourcePaths := [("foo.cpp").data, ("a/foo.cpp").data] }).2 =
    [⟨("foo.h").data, none, ("foo.cpp").data⟩,
     ⟨("foo.h").data, some (("foo.cpp").data), ("a/foo.cpp").data⟩] := by decide
example :
    wait_for_handles [⟨("c1").data, 1, false, none⟩, ⟨("c2").data, 2, false, none⟩] =
    .valueError := by decide
example :
    wait_for_handles [⟨("c1").data, 1, false, none⟩, ⟨("c2").data, 0, true, none⟩] =
    .fatalExit [(1, ("c1").data, none)] := by decide
example :
    has_cache ⟨fun p => if p = ("t.o").data then some 10 else
        if p = ("d.h").data then some 4 else none⟩
      (("host").data)
      [(("t.o").data, ⟨("host").data, ("c m d").data, [("d.h").data]⟩)]
      ⟨("t.o").data, .str (("cmd").data), [("d.h").data]⟩ = some true := by decide

section Helpers

/-- `Source.sources()` removes the source's own path from the result set. -/
theorem mem_sourceSources_ne {env : Env} {fuel : Nat} {p q : PyStr}
    (h : q ∈ sourceSources env fuel p) : q ≠ p := by
  simp only [sourceSources, List.mem_filter, decide_eq_true_eq] at h
  exact h.2

end Helpers

/-- C1.  The command string spawned, cached and exported is `Record.command`;
but `compile_record` stores the already-joined command *string* in the field
declared `list[str]`, so `Record.command = ' '.join(args)` joins the
characters of that string: at a concrete record it differs from the record's
argv tokens joined by single spaces, beginning `g + +` instead of `g++`. -/
theorem C1_record_command_garbles_argv :
    (compile_record lib0 env0 5 (("g++").data) (("c++17").data) false
        (("main.cpp").data)).command ≠
      pretty_join (compileTokens lib0 env0 5 (("g++").data) (("c++17").data) false
        (("main.cpp").data)) ∧
    ((compile_record lib0 env0 5 (("g++").data) (("c++17").data) false
        (("main.cpp").data)).command.take 5 = ("g + +").data ∧
      (pretty_join (compileTokens lib0 env0 5 (("g++").data) (("c++17").data) false
        (("main.cpp").data))).take 5 = ("g++ -").data) := by
  decide

/-- C2 (counterexample).  In the graph `env1` the entry source `main.cpp` has
`sources() = {foo.cpp}`; the scheduler's record list contains no object
compile record whose target is `main.cpp`'s own object target `build/main.o`,
contradicting the claim that a record is built for every element of
`S.sources() ∪ {S}`. -/
theorem C2_no_record_for_entry_source_cex :
    (objectCompileRecords lib0 env1 5 (("g++").data) (("c++17").data) false
        (("main.cpp").data)).map (fun r => r.target) = [("build/foo.o").data] ∧
      sourceTarget (("main.cpp").data) = ("build/main.o").data ∧
      (("build/main.o").data : PyStr) ≠ ("build/foo.o").data := by
  decide

/-- C2 (amended).  The scheduler constructs object compile records exactly for
the elements of `S.sources()` — one per element, each with that element's
object target — and `S.sources()` never contains `S`, so no object compile
record is built for the entry source itself. -/
theorem C2_records_exactly_for_dependency_sources
    (libOf : Nat → LibraryInfo) (env : Env) (fuel : Nat) (cpath std : PyStr)
    (optimize : Bool) (p : PyStr) :
    ((objectCompileRecords libOf env fuel cpath std optimize p).map
        (fun r => r.target) =
      ((sourceSources env fuel p).dedup).map sourceTarget) ∧
    ∀ q ∈ (sourceSources env fuel p).dedup, q ≠ p := by
  constructor
  · simp [objectCompileRecords, compile_record, List.map_map]
  · intro q hq
    exact mem_sourceSources_ne (List.mem_dedup.mp hq)

/-- C3 (counterexample).  A GCC whose version `(4, 0)` is below every
threshold of the table: the filtered list is empty and the `[-1]` index
raises `IndexError` (modelled `none`) instead of returning the lowest
entry's `c++11`. -/
theorem C3_below_all_thresholds_cex :
    select_version GCC_VERSION_DETAILS [4, 0] = none := by
  decide

/-- C4 (counterexample).  With `g++` preferred, no gcc candidate and one
clang candidate discovered, `select_compiler` evaluates `max([])` and raises
`ValueError` instead of falling back to the clang candidate. -/
theorem C4_preferred_gcc_empty_cex :
    select_compiler (("g++").data) [] [⟨("clang++").data, [15]⟩] = .valueError := by
  decide

/-- C7 (counterexample).  A source under a link path keeps the
link-directory component: `build/.links/B-1a2b3c/util.cpp` maps to
`build/B-1a2b3c/util.o`, not to the flattened `build/util.o` of the claim. -/
theorem C7_link_target_not_flattened_cex :
    sourceTarget (("build/.links/B-1a2b3c/util.cpp").data) =
        ("build/B-1a2b3c/util.o").data ∧
      sourceTarget (("build/.links/B-1a2b3c/util.cpp").data) ≠ ("build/util.o").data := by
  decide

/-- C8.  Two handles, both exited non-zero: the first failure switches to
draining mode, the drained failure is appended as a 4-tuple, and the report
loop's 3-way unpacking raises `ValueError` — the failures are never all
printed and the scheduler's fatal exit is never reached. -/
theorem C8_drain_failure_raises_valueerror :
    wait_for_handles [⟨("cc a.cpp").data, 1, false, none⟩,
        ⟨("cc b.cpp").data, 2, false, none⟩] = .valueError ∧
      wait_for_handles [⟨("cc a.cpp").data, 1, false, none⟩,
        ⟨("cc b.cpp").data, 0, true, none⟩] =
        .fatalExit [(1, ("cc a.cpp").data, none)] := by
  decide

/-- C9.  In one `_complete_header_once` pass over a module with header
`foo.h` and the two same-stem sources `foo.cpp` and `a/foo.cpp`, the second
loop attaches `foo.cpp` and then immediately re-attaches `a/foo.cpp` to the
same header (its inner loop ends in `continue`, not `break`): the second
attachment targets a header whose companion is already set, and the
companion is replaced by a different source. -/
theorem C9_companion_reattached_in_one_pass :
    (complete_header_once (fun _ => []) pairSt0).2 =
        [⟨("foo.h").data, none, ("foo.cpp").data⟩,
         ⟨("foo.h").data, some (("foo.cpp").data), ("a/foo.cpp").data⟩] ∧
      ((complete_header_once (fun _ => []) pairSt0).2.any
        (fun e => e.prev.isSome)) = true ∧
      companionOf (complete_header_once (fun _ => []) pairSt0).1.headers
        (("foo.h").data) = some (some (("a/foo.cpp").data)) := by
  decide

/-- C10.  For every analysed graph, fuel and source path, the transitive
`sources()` set of a source never contains the source itself: the final
`remove(self)` deletes the source's own canonical path from the set. -/
theorem C10_source_not_in_own_sources (env : Env) (fuel : Nat) (p : PyStr) :
    p ∉ sourceSources env fuel p := by
  intro h
  exact mem_sourceSources_ne h rfl

/-- C3 (amended).  Whenever at least one table entry's minimum version is
`≤ version`, `_select_version` returns the `std_name` of the *last* such
entry: the table decomposes as `l₁ ++ d :: l₂` with `d` satisfied and nothing
after `d` satisfied, and the result is `some d.2`. -/
theorem C3_select_version_last_entry (details : VersionDetails) (v : List Nat)
    (h : ∃ e ∈ details, pyLe e.1 v = true) :
    ∃ d l₁ l₂, details = l₁ ++ d :: l₂ ∧ pyLe d.1 v = true ∧
      (∀ e ∈ l₂, pyLe e.1 v = false) ∧ select_version details v = some d.2 := by
  induction details using List.reverseRecOn with
  | nil => simp at h
  | append_singleton l a ih =>
    by_cases ha : pyLe a.1 v = true
    · refine ⟨a, l, [], rfl, ha, by simp, ?_⟩
      simp [select_version, List.filter_append, ha]
    · have h' : ∃ e ∈ l, pyLe e.1 v = true := by
        rcases h with ⟨e, he, hee⟩
        rcases List.mem_append.mp he with h1 | h2
        · exact ⟨e, h1, hee⟩
        · rw [List.mem_singleton.mp h2] at hee
          exact absurd hee ha
      rcases ih h' with ⟨d, l₁, l₂, hdec, hd, hl₂, hres⟩
      refine ⟨d, l₁, l₂ ++ [a], by rw [hdec, List.append_assoc]; rfl, hd, ?_, ?_⟩
      · intro e he
        rcases List.mem_append.mp he with h1 | h2
        · exact hl₂ e h1
        · rw [List.mem_singleton.mp h2]
          exact Bool.eq_false_iff.mpr (fun hc => ha hc)
      · rw [← hres]
        simp [select_version, List.filter_append, ha]

/-- C3 witness: a GCC 13.2 picks `c++23`, the last entry whose minimum
`(11, 1)` is at most the version. -/
theorem C3_select_version_last_entry_witness :
    (∃ e ∈ GCC_VERSION_DETAILS, pyLe e.1 [13, 2] = true) ∧
      ∃ d l₁ l₂, GCC_VERSION_DETAILS = l₁ ++ d :: l₂ ∧ pyLe d.1 [13, 2] = true ∧
        (∀ e ∈ l₂, pyLe e.1 [13, 2] = false) ∧
        select_version GCC_VERSION_DETAILS [13, 2] = some d.2 :=
  ⟨by decide, C3_select_version_last_entry GCC_VERSION_DETAILS [13, 2] (by decide)⟩

section Helpers

/-- The fold inside Python `max(..., key=version)` yields either the seed or a
list element, never below the seed's version nor below any element's. -/
theorem foldlMax_spec (cs : List Candidate) : ∀ acc : Candidate,
    (cs.foldl stepMax acc = acc ∨ cs.foldl stepMax acc ∈ cs) ∧
    acc.version ≤ (cs.foldl stepMax acc).version ∧
    ∀ y ∈ cs, y.version ≤ (cs.foldl stepMax acc).version := by
  induction cs with
  | nil => intro acc; exact ⟨Or.inl rfl, le_refl _, by simp⟩
  | cons y ys ih =>
    intro acc
    have hstep : ys.foldl stepMax (stepMax acc y) = (y :: ys).foldl stepMax acc := rfl
    rcases ih (stepMax acc y) with ⟨hmem, hacc, hall⟩
    have hy : y.version ≤ (stepMax acc y).version := by
      unfold stepMax
      by_cases hlt : pyLt acc.version y.version = true
      · simp [hlt]
      · simp [hlt]
        simp only [pyLt, decide_eq_true_eq] at hlt
        exact le_of_not_lt hlt
    have ha : acc.version ≤ (stepMax acc y).version := by
      unfold stepMax
      by_cases hlt : pyLt acc.version y.version = true
      · simp [hlt]
        simp only [pyLt, decide_eq_true_eq] at hlt
        exact le_of_lt hlt
      · simp [hlt]
    refine ⟨?_, ?_, ?_⟩
    · rw [← hstep]
      rcases hmem with h | h
      · rw [h]
        unfold stepMax
        by_cases hlt : pyLt acc.version y.version = true
        · simp [hlt]
        · simp [hlt]
      · exact Or.inr (List.mem_cons_of_mem _ h)
    · rw [← hstep]
      exact le_trans ha hacc
    · intro z hz
      rw [← hstep]
      rcases List.mem_cons.mp hz with h | h
      · rw [h]
        exact le_trans hy hacc
      · exact hall z h

/-- Python `max` over a non-empty candidate list returns a member whose
version bounds every member's version. -/
theorem pyMaxByVersion_spec (cands : List Candidate) (h : cands ≠ []) :
    ∃ c, pyMaxByVersion cands = some c ∧ c ∈ cands ∧
      ∀ d ∈ cands, d.version ≤ c.version := by
  match cands with
  | [] => exact absurd rfl h
  | c :: cs =>
    rcases foldlMax_spec cs c with ⟨hmem, hacc, hall⟩
    refine ⟨cs.foldl stepMax c, rfl, ?_, ?_⟩
    · rcases hmem with h | h
      · rw [h]; exact List.mem_cons_self _ _
      · exact List.mem_cons_of_mem _ h
    · intro d hd
      rcases List.mem_cons.mp hd with h | h
      · rw [h]; exact hacc
      · exact hall d h

end Helpers

/-- C4 (amended).  With at least one candidate discovered: when g++ is
preferred or no clang candidate exists, a non-empty gcc list yields its
highest-versioned member; when g++ is preferred, the gcc list is empty and a
clang candidate exists, `max([])` raises `ValueError` — no fallback; when
clang++ (anything but g++) is preferred and a clang candidate exists, the
highest-versioned clang candidate is returned. -/
theorem C4_select_compiler_spec (prefer : PyStr) (gccs clangs : List Candidate)
    (h : gccs ≠ [] ∨ clangs ≠ []) :
    ((prefer = ("g++").data ∨ clangs = []) → gccs ≠ [] →
      ∃ c, select_compiler prefer gccs clangs = .found c ∧ c ∈ gccs ∧
        ∀ d ∈ gccs, d.version ≤ c.version) ∧
    (prefer = ("g++").data → gccs = [] → clangs ≠ [] →
      select_compiler prefer gccs clangs = .valueError) ∧
    (prefer ≠ ("g++").data → clangs ≠ [] →
      ∃ c, select_compiler prefer gccs clangs = .found c ∧ c ∈ clangs ∧
        ∀ d ∈ clangs, d.version ≤ c.version) := by
  have hlen : ¬ (gccs.length + clangs.length = 0) := by
    rcases h with h | h
    · intro hc
      exact h (List.eq_nil_of_length_eq_zero (Nat.eq_zero_of_add_eq_zero_right hc))
    · intro hc
      exact h (List.eq_nil_of_length_eq_zero (Nat.eq_zero_of_add_eq_zero_left hc))
  refine ⟨?_, ?_, ?_⟩
  · intro hbranch hg
    rcases pyMaxByVersion_spec gccs hg with ⟨c, hc, hmem, hmax⟩
    refine ⟨c, ?_, hmem, hmax⟩
    unfold select_compiler
    rw [if_neg hlen]
    have hcond : prefer = ("g++").data ∨ clangs.length = 0 := by
      rcases hbranch with h | h
      · exact Or.inl h
      · exact Or.inr (by rw [h]; rfl)
    rw [if_pos hcond, hc]
  · intro hp hg hc
    unfold select_compiler
    rw [if_neg hlen, if_pos (Or.inl hp), hg]
    rfl
  · intro hp hc
    rcases pyMaxByVersion_spec clangs hc with ⟨c, hcm, hmem, hmax⟩
    refine ⟨c, ?_, hmem, hmax⟩
    unfold select_compiler
    rw [if_neg hlen]
    have hcond : ¬ (prefer = ("g++").data ∨ clangs.length = 0) := by
      intro hor
      rcases hor with h | h
      · exact hp h
      · exact hc (List.eq_nil_of_length_eq_zero h)
    rw [if_neg hcond, hcm]

/-- C4 witness: clang++ preferred with one gcc and two clang candidates —
the higher-versioned clang candidate is selected; and the gcc branch
conclusion also holds for a g++ preference over the same candidates. -/
theorem C4_select_compiler_spec_witness :
    (([⟨("g++-12").data, [12, 1]⟩] : List Candidate) ≠ [] ∨
      ([⟨("clang++").data, [15]⟩, ⟨("clang++-17").data, [17, 0, 1]⟩] : List Candidate) ≠ []) ∧
    (((("clang++").data : PyStr) = ("g++").data ∨
        ([⟨("clang++").data, [15]⟩, ⟨("clang++-17").data, [17, 0, 1]⟩] : List Candidate) = []) →
      ([⟨("g++-12").data, [12, 1]⟩] : List Candidate) ≠ [] →
      ∃ c, select_compiler (("clang++").data) [⟨("g++-12").data, [12, 1]⟩]
          [⟨("clang++").data, [15]⟩, ⟨("clang++-17").data, [17, 0, 1]⟩] = .found c ∧
        c ∈ ([⟨("g++-12").data, [12, 1]⟩] : List Candidate) ∧
        ∀ d ∈ ([⟨("g++-12").data, [12, 1]⟩] : List Candidate), d.version ≤ c.version) ∧
    ((("clang++").data : PyStr) = ("g++").data →
      ([⟨("g++-12").data, [12, 1]⟩] : List Candidate) = [] →
      ([⟨("clang++").data, [15]⟩, ⟨("clang++-17").data, [17, 0, 1]⟩] : List Candidate) ≠ [] →
      select_compiler (("clang++").data) [⟨("g++-12").data, [12, 1]⟩]
        [⟨("clang++").data, [15]⟩, ⟨("clang++-17").data, [17, 0, 1]⟩] = .valueError) ∧
    ((("clang++").data : PyStr) ≠ ("g++").data →
      ([⟨("clang++").data, [15]⟩, ⟨("clang++-17").data, [17, 0, 1]⟩] : List Candidate) ≠ [] →
      ∃ c, select_compiler (("clang++").data) [⟨("g++-12").data, [12, 1]⟩]
          [⟨("clang++").data, [15]⟩, ⟨("clang++-17").data, [17, 0, 1]⟩] = .found c ∧
        c ∈ ([⟨("clang++").data, [15]⟩, ⟨("clang++-17").data, [17, 0, 1]⟩] : List Candidate) ∧
        ∀ d ∈ ([⟨("clang++").data, [15]⟩, ⟨("clang++-17").data, [17, 0, 1]⟩] : List Candidate),
          d.version ≤ c.version) :=
  ⟨Or.inl (by decide),
   C4_select_compiler_spec (("clang++").data) [⟨("g++-12").data, [12, 1]⟩]
     [⟨("clang++").data, [15]⟩, ⟨("clang++-17").data, [17, 0, 1]⟩] (Or.inl (by decide))⟩

section Helpers

/-- `sameSet` is Boolean set equality: both lists have the same members. -/
theorem sameSet_iff (a b : List PyStr) :
    sameSet a b = true ↔ ∀ x, x ∈ a ↔ x ∈ b := by
  simp only [sameSet, Bool.and_eq_true, List.all_eq_true, decide_eq_true_eq]
  constructor
  · intro ⟨hab, hba⟩ x
    exact ⟨fun hx => hab x hx, fun hx => hba x hx⟩
  · intro h
    exact ⟨fun x hx => (h x).mp hx, fun x hx => (h x).mpr hx⟩

/-- The dependency walk returns `some true` exactly when no existing
dependency's change-time exceeds the target's (all dependencies assumed to
exist). -/
theorem depsFresh_iff (fs : FileSystem) (tc : Int) (ds : List PyStr)
    (hex : ∀ d ∈ ds, (fs.ctime d).isSome) :
    depsFresh fs tc ds = some true ↔
      ∀ d ∈ ds, ∀ td, fs.ctime d = some td → td ≤ tc := by
  induction ds with
  | nil => simp [depsFresh]
  | cons d ds ih =>
    have hd : (fs.ctime d).isSome := hex d (List.mem_cons_self _ _)
    rcases Option.isSome_iff_exists.mp hd with ⟨td, htd⟩
    have ih' := ih (fun x hx => hex x (List.mem_cons_of_mem _ hx))
    simp only [depsFresh, htd]
    by_cases hlt : tc < td
    · rw [if_pos hlt]
      constructor
      · intro hc
        exact absurd hc (by simp)
      · intro h
        have := h d (List.mem_cons_self _ _) td htd
        omega
    · rw [if_neg hlt, ih']
      constructor
      · intro h x hx tx htx
        rcases List.mem_cons.mp hx with h1 | h1
        · rw [h1, htd] at htx
          have h2 := Option.some.inj htx
          omega
        · exact h x h1 tx htx
      · intro h x hx tx htx
        exact h x (List.mem_cons_of_mem _ hx) tx htx

end Helpers

/-- C5.  Provided every dependency exists on disk (otherwise `os.stat`
raises), `has_cache` returns `True` exactly when: the target exists, a cache
entry is present under the target path, its hostname is the current host,
its command equals the record's command, its dependency set equals the
record's as unordered sets, and the target's change-time is at least every
dependency's change-time. -/
theorem C5_has_cache_iff (fs : FileSystem) (host : PyStr)
    (entries : List (PyStr × EntryDict)) (r : Record)
    (hdeps : ∀ d ∈ r.dependencies, (fs.ctime d).isSome) :
    has_cache fs host entries r = some true ↔
      (fs.ctime r.target).isSome ∧
      ∃ e, lookupEntry r.target entries = some e ∧
        e.hostname = host ∧ e.command = r.command ∧
        (∀ x, x ∈ r.dependencies ↔ x ∈ e.dependencies) ∧
        ∀ d ∈ r.dependencies, ∀ td tt, fs.ctime d = some td →
          fs.ctime r.target = some tt → td ≤ tt := by
  unfold has_cache
  cases hct : fs.ctime r.target with
  | none =>
    simp only [hct]
    constructor
    · intro hc
      exact absurd hc (by simp)
    · intro ⟨h, _⟩
      exact absurd h (by simp)
  | some tc =>
    cases hl : lookupEntry r.target entries with
    | none =>
      simp only [hl]
      constructor
      · intro hc
        exact absurd hc (by simp)
      · intro ⟨_, e, he, _⟩
        exact absurd he (by simp)
    | some e =>
      simp only [hl]
      by_cases hmatch : e.hostname ≠ host ∨ e.command ≠ r.command
      · rw [if_pos hmatch]
        constructor
        · intro hc
          exact absurd hc (by simp)
        · intro ⟨_, e', he', hh, hcmd, _⟩
          have he2 : e = e' := Option.some.inj he'
          rw [← he2] at hh hcmd
          rcases hmatch with h | h
          · exact (h hh).elim
          · exact (h hcmd).elim
      · rw [if_neg hmatch]
        push_neg at hmatch
        by_cases hset : sameSet r.dependencies e.dependencies = true
        · rw [if_neg (by rw [hset]; simp)]
          rw [depsFresh_iff fs tc r.dependencies hdeps]
          constructor
          · intro h
            refine ⟨by simp, e, rfl, hmatch.1, hmatch.2, (sameSet_iff _ _).mp hset, ?_⟩
            intro d hd td tt htd htt
            have h2 := Option.some.inj htt
            have := h d hd td htd
            omega
          · intro ⟨_, e', he', _, _, _, hfresh⟩
            intro d hd td htd
            exact hfresh d hd td tc htd rfl
        · rw [if_pos (by rw [Bool.eq_false_iff.mpr hset]; simp)]
          constructor
          · intro hc
            exact absurd hc (by simp)
          · intro ⟨_, e', he', _, _, hmem, _⟩
            have he2 : e = e' := Option.some.inj he'
            rw [← he2] at hmem
            exact (hset ((sameSet_iff _ _).mpr hmem)).elim

/-- C5 witness: a concrete filesystem and cache where every freshness
condition holds, so `has_cache` answers `True`. -/
theorem C5_has_cache_iff_witness :
    (∀ d ∈ ([("d.h").data] : List PyStr),
      ((FileSystem.mk (fun p => if p = ("t.o").data then some 10 else
        if p = ("d.h").data then some 4 else none)).ctime d).isSome) ∧
    (has_cache (FileSystem.mk (fun p => if p = ("t.o").data then some 10 else
        if p = ("d.h").data then some 4 else none))
      (("host").data)
      [(("t.o").data, ⟨("host").data, ("c m d").data, [("d.h").data]⟩)]
      ⟨("t.o").data, .str (("cmd").data), [("d.h").data]⟩ = some true ↔
      (((FileSystem.mk (fun p => if p = ("t.o").data then some 10 else
        if p = ("d.h").data then some 4 else none)).ctime (("t.o").data)).isSome ∧
      ∃ e, lookupEntry (("t.o").data)
          [(("t.o").data, ⟨("host").data, ("c m d").data, [("d.h").data]⟩)] = some e ∧
        e.hostname = ("host").data ∧
        e.command = (Record.mk (("t.o").data) (.str (("cmd").data)) [("d.h").data]).command ∧
        (∀ x, x ∈ ([("d.h").data] : List PyStr) ↔ x ∈ e.dependencies) ∧
        ∀ d ∈ ([("d.h").data] : List PyStr), ∀ td tt,
          (FileSystem.mk (fun p => if p = ("t.o").data then some 10 else
            if p = ("d.h").data then some 4 else none)).ctime d = some td →
          (FileSystem.mk (fun p => if p = ("t.o").data then some 10 else
            if p = ("d.h").data then some 4 else none)).ctime (("t.o").data) = some tt →
          td ≤ tt)) :=
  ⟨by decide,
   C5_has_cache_iff (FileSystem.mk (fun p => if p = ("t.o").data then some 10 else
      if p = ("d.h").data then some 4 else none))
     (("host").data)
     [(("t.o").data, ⟨("host").data, ("c m d").data, [("d.h").data]⟩)]
     ⟨("t.o").data, .str (("cmd").data), [("d.h").data]⟩
     (by decide)⟩

section Helpers

/-- The pair a match of `_find_self_include` produces reassembles the header
path: either the dot directory with the path equal to the include, or the
stripped prefix re-concatenated with `/<include>`. -/
theorem fsiStep_sound (incl : PyStr) (acc : Option (PyStr × PyStr)) (path d p : PyStr)
    (h : fsiStep incl acc path = some (d, p)) :
    ((d = ['.'] ∧ p = incl) ∨ d ++ '/' :: incl = p) ∨ acc = some (d, p) := by
  unfold fsiStep at h
  by_cases h1 : path = incl
  · rw [if_pos h1] at h
    have h2 := Option.some.inj h
    have hd : d = ['.'] := (congrArg Prod.fst h2).symm
    have hp : p = path := (congrArg Prod.snd h2).symm
    exact Or.inl (Or.inl ⟨hd, hp.trans h1⟩)
  · rw [if_neg h1] at h
    by_cases h2 : ('/' :: incl) <:+ path
    · rw [if_pos h2] at h
      have h3 := Option.some.inj h
      have hd : d = path.take (path.length - (incl.length + 1)) :=
        (congrArg Prod.fst h3).symm
      have hp : p = path := (congrArg Prod.snd h3).symm
      rcases h2 with ⟨t, ht⟩
      have hlen : path.length = t.length + (incl.length + 1) := by
        rw [← ht]
        simp [List.length_append]
      have htake : path.take (path.length - (incl.length + 1)) = t := by
        rw [hlen]
        simp only [Nat.add_sub_cancel]
        rw [← ht]
        exact List.take_left t ('/' :: incl)
      refine Or.inl (Or.inr ?_)
      rw [hd, htake, hp, ← ht]
    · rw [if_neg h2] at h
      exact Or.inr h

/-- Folding `fsiStep` over any path list preserves soundness of the
accumulator: every produced pair reassembles its header path. -/
theorem foldl_fsiStep_sound (incl : PyStr) (l : List PyStr) :
    ∀ (acc : Option (PyStr × PyStr)) (d p : PyStr),
      l.foldl (fsiStep incl) acc = some (d, p) →
      ((d = ['.'] ∧ p = incl) ∨ d ++ '/' :: incl = p) ∨ acc = some (d, p) := by
  induction l with
  | nil =>
    intro acc d p h
    exact Or.inr h
  | cons a t ih =>
    intro acc d p h
    rcases ih (fsiStep incl acc a) d p h with hq | hacc
    · exact Or.inl hq
    · rcases fsiStep_sound incl acc a d p hacc with hq | hacc2
      · exact Or.inl hq
      · exact Or.inr hacc2

/-- The path returned by the fold is a member of the scanned list (unless it
came from the accumulator). -/
theorem foldl_fsiStep_mem (incl : PyStr) (l : List PyStr) :
    ∀ (acc : Option (PyStr × PyStr)) (d p : PyStr),
      l.foldl (fsiStep incl) acc = some (d, p) →
      p ∈ l ∨ acc = some (d, p) := by
  induction l with
  | nil =>
    intro acc d p h
    exact Or.inr h
  | cons a t ih =>
    intro acc d p h
    rcases ih (fsiStep incl acc a) d p h with hm | hacc
    · exact Or.inl (List.mem_cons_of_mem _ hm)
    · unfold fsiStep at hacc
      by_cases h1 : a = incl
      · rw [if_pos h1] at hacc
        have hp : a = p := congrArg Prod.snd (Option.some.inj hacc)
        exact Or.inl (by rw [← hp]; exact List.mem_cons_self _ _)
      · rw [if_neg h1] at hacc
        by_cases h2 : ('/' :: incl) <:+ a
        · rw [if_pos h2] at hacc
          have hp : a = p := congrArg Prod.snd (Option.some.inj hacc)
          exact Or.inl (by rw [← hp]; exact List.mem_cons_self _ _)
        · rw [if_neg h2] at hacc
          exact Or.inr hacc

end Helpers

/-- C6.  Every result `(dir, H)` of the self step of q-include resolution
satisfies: `H`'s path is in the module's header-path set, and either `dir`
is the literal `.` with the include string equal to the path, or the
concatenation `dir ++ '/' ++ include` equals the path — i.e. the resolving
directory is the path with the matched `/<include>` suffix removed. -/
theorem C6_self_include_concat (headerPaths : List PyStr) (incl dir p : PyStr)
    (h : find_self_include headerPaths incl = some (dir, p)) :
    p ∈ headerPaths ∧ ((dir = ['.'] ∧ p = incl) ∨ dir ++ '/' :: incl = p) := by
  unfold find_self_include at h
  constructor
  · rcases foldl_fsiStep_mem incl headerPaths none dir p h with hm | hacc
    · exact hm
    · exact absurd hacc (by simp)
  · rcases foldl_fsiStep_sound incl headerPaths none dir p h with hq | hacc
    · exact hq
    · exact absurd hacc (by simp)

/-- C6 witness: resolving `foo.h` against the header set `{a/foo.h}` yields
directory `a`, and indeed `a ++ / ++ foo.h = a/foo.h`, a member of the set. -/
theorem C6_self_include_concat_witness :
    find_self_include [("a/foo.h").data] (("foo.h").data) =
        some (("a").data, ("a/foo.h").data) ∧
      ("a/foo.h").data ∈ ([("a/foo.h").data] : List PyStr) ∧
      ((("a").data = ['.'] ∧ ("a/foo.h").data = ("foo.h").data) ∨
        ("a").data ++ '/' :: ("foo.h").data = ("a/foo.h").data) :=
  ⟨by decide,
   C6_self_include_concat [("a/foo.h").data] (("foo.h").data) (("a").data)
     (("a/foo.h").data) (by decide)⟩

section Helpers

/-- `takeWhile` consumes a satisfying block and stops at the first failing
element. -/
theorem takeWhile_append_stop {α : Type} (p : α → Bool) (xs : List α) (y : α) (ys : List α)
    (hxs : ∀ x ∈ xs, p x = true) (hy : p y = false) :
    (xs ++ y :: ys).takeWhile p = xs := by
  induction xs with
  | nil => simp [List.takeWhile_cons, hy]
  | cons a as ih =>
    have ha := hxs a (List.mem_cons_self _ _)
    simp only [List.cons_append, List.takeWhile_cons, ha, if_true]
    rw [ih (fun x hx => hxs x (List.mem_cons_of_mem _ hx))]

/-- The basename of a path whose last separator precedes a slash-free tail is
that tail. -/
theorem baseName_append (xs ys : PyStr) (h : ∀ c ∈ ys, c ≠ '/') :
    baseName (xs ++ '/' :: ys) = ys := by
  unfold baseName
  rw [List.reverse_append, List.reverse_cons, List.append_assoc, List.singleton_append]
  rw [takeWhile_append_stop _ ys.reverse '/' xs.reverse
    (fun x hx => by
      simp only [decide_eq_true_eq]
      exact h x (List.mem_reverse.mp hx))
    (by simp)]
  exact List.reverse_reverse ys

end Helpers

/-- C7 (amended).  For a source under the links directory, the object target
strips exactly the `build/.links/` prefix — keeping the link-directory
component — and rewrites the extension to `.o` under `build/`: for every
hash `h`, `build/.links/B-h/util.cpp` maps to `build/B-h/util.o`
(and not to the flattened `build/util.o`). -/
theorem C7_link_target_strips_links_dir (h : PyStr) :
    sourceTarget (("build/.links/B-").data ++ h ++ ("/util.cpp").data) =
      ("build/B-").data ++ h ++ ("/util.o").data := by
  have hsplit : (("build/.links/B-").data : PyStr) = LINKS_DIR_PATH ++ ("/B-").data := by
    decide
  have hp : (("build/.links/B-").data ++ h ++ ("/util.cpp").data : PyStr)
      = LINKS_DIR_PATH ++ (("/B-").data ++ (h ++ ("/util.cpp").data)) := by
    rw [hsplit]
    simp [List.append_assoc]
  rw [hp]
  unfold sourceTarget
  rw [if_pos (List.prefix_append _ _)]
  have hslash2 : ((("/B-").data : PyStr) ++ (h ++ ("/util.cpp").data))
      = ['/'] ++ (("B-").data ++ (h ++ ("/util.cpp").data)) := by
    simp
  have hdrop : (LINKS_DIR_PATH ++ (("/B-").data ++ (h ++ ("/util.cpp").data))).drop
      (LINKS_DIR_PATH.length + 1) = ("B-").data ++ (h ++ ("/util.cpp").data) := by
    rw [hslash2, ← List.append_assoc]
    exact List.drop_left' (by simp)
  rw [hdrop]
  have hstem : (("B-").data : PyStr) ++ (h ++ ("/util.cpp").data)
      = (("B-").data ++ h) ++ '/' :: ("util.cpp").data := by
    have : (("/util.cpp").data : PyStr) = '/' :: ("util.cpp").data := by decide
    rw [this, ← List.append_assoc]
  have hbase : baseName ((("B-").data : PyStr) ++ (h ++ ("/util.cpp").data))
      = ("util.cpp").data := by
    rw [hstem]
    exact baseName_append _ _ (by decide)
  have hsx : splitext ((("B-").data : PyStr) ++ (h ++ ("/util.cpp").data))
      = (((("B-").data ++ h) ++ ("/util").data),
         ('.' :: ("cpp").data)) := by
    unfold splitext
    rw [hbase]
    have hext : extSplitLen (("util.cpp").data) = some 4 := by decide
    rw [hext]
    show ((("B-").data ++ (h ++ ("/util.cpp").data)).take
          ((("B-").data ++ (h ++ ("/util.cpp").data)).length - 4),
        (("B-").data ++ (h ++ ("/util.cpp").data)).drop
          ((("B-").data ++ (h ++ ("/util.cpp").data)).length - 4)) = _
    have hlen : ((("B-").data : PyStr) ++ (h ++ ("/util.cpp").data)).length
        = h.length + 11 := by
      simp [List.length_append]
    have hdecomp : (("B-").data : PyStr) ++ (h ++ ("/util.cpp").data)
        = ((("B-").data ++ h) ++ ("/util").data) ++ ('.' :: ("cpp").data) := by
      have hc : (("/util.cpp").data : PyStr) = ("/util").data ++ ('.' :: ("cpp").data) := by
        decide
      rw [hc]
      simp [List.append_assoc]
    have hlen2 : ((("B-").data ++ h) ++ ("/util").data).length = h.length + 7 := by
      simp [List.length_append]
    simp only [Prod.mk.injEq]
    constructor
    · rw [hlen, hdecomp]
      refine List.take_left' ?_
      omega
    · rw [hlen, hdecomp]
      refine List.drop_left' ?_
      omega
  show osPathJoin BUILD_DIR_NAME
      ((splitext ((("B-").data : PyStr) ++ (h ++ ("/util.cpp").data))).1 ++ ('.' :: ['o']))
      = ("build/B-").data ++ h ++ ("/util.o").data
  rw [hsx]
  unfold osPathJoin
  have hhead : (((("B-").data ++ h) ++ ("/util").data) ++ '.' :: ['o']).head? = some 'B' := by
    have : (("B-").data : PyStr) = 'B' :: ("-").data := by decide
    rw [this]
    simp
  rw [hhead]
  rw [if_neg (by simp), if_neg (by decide)]
  have h1 : (("build/B-").data : PyStr) = BUILD_DIR_NAME ++ '/' :: ("B-").data := by decide
  have h2 : (("/util.o").data : PyStr) = ("/util").data ++ '.' :: ['o'] := by decide
  rw [h1, h2]
  simp [List.append_assoc]

